import Mathlib

/-!
Verification of the llama-rs inference runtime against its specification.

Shallow embedding of:
  * `crates/llm-base/src/loader.rs` — `FileType` conversions, multipart check in `load`;
  * `llama-rs/src/common/inference.rs` — `InferenceSession`, `feed_prompt`,
    `infer_next_token`, `repetition_penalty_tokens`, snapshot write/read;
  * `crates/models/bloom/src/lib.rs` — the compute graph built by `Bloom::evaluate`,
    as a symbolic tensor-expression tree.

Machine integers are modelled as `Nat`/`Int`; byte buffers as `List Nat`
(each element < 256); `f32` values by their 4-byte little-endian bit
patterns (a `Nat` < 2^32), which is faithful for all claims here (they
concern lengths, equality of stored bytes, and dataflow, never float
arithmetic).
-/

namespace LlamaRs

/-! ## FileType (crates/llm-base/src/loader.rs, lines 22-77) -/

/-- How the tensors are stored in GGML LLM models. Mirrors `enum FileType`. -/
inductive FileType where
  | F32
  | MostlyF16
  | MostlyQ4_0
  | MostlyQ4_1
  | MostlyQ4_1SomeF16
  | MostlyQ4_2
  | MostlyQ8_0
  | MostlyQ5_0
  | MostlyQ5_1
  deriving DecidableEq, Repr

/-- Mirrors `impl From<FileType> for i32`. -/
def FileType.toI32 : FileType → Int
  | .F32 => 0
  | .MostlyF16 => 1
  | .MostlyQ4_0 => 2
  | .MostlyQ4_1 => 3
  | .MostlyQ4_1SomeF16 => 4
  | .MostlyQ4_2 => 5
  | .MostlyQ8_0 => 7
  | .MostlyQ5_0 => 8
  | .MostlyQ5_1 => 9

/-- Mirrors `impl TryFrom<i32> for FileType` (the Rust `match` on an `i32`
scrutinee, written as the equivalent chain of equality tests). -/
def FileType.tryFromI32 (value : Int) : Option FileType :=
  if value = 0 then some .F32
  else if value = 1 then some .MostlyF16
  else if value = 2 then some .MostlyQ4_0
  else if value = 3 then some .MostlyQ4_1
  else if value = 4 then some .MostlyQ4_1SomeF16
  else if value = 5 then some .MostlyQ4_2
  else if value = 7 then some .MostlyQ8_0
  else if value = 8 then some .MostlyQ5_0
  else if value = 9 then some .MostlyQ5_1
  else none

/-! ## repetition_penalty_tokens (llama-rs/src/common/inference.rs, lines 36-42)

`&self.tokens[self.tokens.len().saturating_sub(self.params.repetition_penalty_last_n)..]`
Rust `usize::saturating_sub` is exactly `Nat` subtraction; the slice
`&v[start..]` is `List.drop start`. -/

/-- Token ids are `i32` in the source (`TokenId = i32`). -/
abbrev TokenId := Int

/-- Mirrors `ModelKVMemoryType`. -/
inductive ModelKVMemoryType where
  | Float16
  | Float32
  deriving DecidableEq, Repr

/-- Mirrors `InferenceSessionParameters`. -/
structure InferenceSessionParameters where
  repetition_penalty_last_n : Nat
  memory_k_type : ModelKVMemoryType
  memory_v_type : ModelKVMemoryType
  deriving DecidableEq, Repr

/-- Observable state of `InferenceSession`.  The ggml `memory_k`/`memory_v`
tensors are modelled by their raw byte contents (`data()`/`nbytes()`), which
is all the session code ever reads of them; `last_logits : Vec<f32>` is
modelled by the 32-bit patterns of its elements. -/
structure InferenceSession where
  params : InferenceSessionParameters
  memory_k : List Nat
  memory_v : List Nat
  n_past : Nat
  mem_per_token : Nat
  tokens : List TokenId
  last_logits : List Nat
  deriving Repr

/-- Mirrors `InferenceSession::repetition_penalty_tokens`. -/
def InferenceSession.repetition_penalty_tokens (s : InferenceSession) : List TokenId :=
  s.tokens.drop (s.tokens.length - s.params.repetition_penalty_last_n)

/-! ## InferenceError (llama-rs/src/common/inference.rs, lines 348-356) -/

/-- Mirrors `enum InferenceError` (the payload of `UserCallback` is dropped;
no claim inspects it). -/
inductive InferenceError where
  | TokenizationFailed
  | ContextFull
  | UserCallback
  deriving DecidableEq, Repr

/-- Mirrors `InferenceParameters` (llama-rs/src/common/inference.rs, lines
119-131); the `f32` fields carry 32-bit patterns, `bias_tokens` is the list
of (token, bias-bit-pattern) pairs behind `TokenBias`. -/
structure InferenceParameters where
  n_threads : Nat
  n_batch : Nat
  top_k : Nat
  top_p : Nat
  repeat_penalty : Nat
  temp : Nat
  bias_tokens : List (TokenId × Nat)
  play_back_previous_tokens : Bool
  increased_determinism : Bool
  deriving DecidableEq, Repr

/-! ## The `Model` trait operations used by the session loops

`feed_prompt` / `infer_next_token` call `model.tokenize`, `model.evaluate`
and `model.sample_top_p_top_k` through the `Model` trait; their
implementations live in files outside the extracted sources.  We therefore
model the trait abstractly, with the session-visible effect of `evaluate`
taken from the specification. -/

/-- Modelled from the spec: the `Model` trait operations invoked by
`InferenceSession::feed_prompt` and `InferenceSession::infer_next_token`
(the trait's implementation files — `tokenize`, `sample_top_p_top_k`, and
the per-architecture `evaluate` bodies for the session-update part — are
not among the extracted sources).  `logitsAt`, `memK`, `memV` give the new
`last_logits` (f32 bit patterns) and K/V-cache bytes produced by a forward
pass from a given session state on a given batch; `sample` is the
deterministic result of `sample_top_p_top_k` for a given RNG state. -/
structure ModelSpec where
  n_vocab : Nat
  n_ctx : Nat
  tokenize : String → Bool → Except InferenceError (List TokenId)
  logitsAt : InferenceParameters → InferenceSession → List TokenId → List Nat
  memK : InferenceParameters → InferenceSession → List TokenId → List Nat
  memV : InferenceParameters → InferenceSession → List TokenId → List Nat
  sample : InferenceParameters → InferenceSession → Nat → TokenId

/-- Modelled from the spec (§4.4 "Post-graph outputs"): the session update
performed by one `evaluate(session, params, input_tokens[0..n], ...)` call —
copy the last logits column into `session.last_logits` and
`session.n_past += n`; the K/V cache is mutated in place.  (`mem_per_token`
is measured scratch memory; its exact value is irrelevant to every claim
and kept unchanged.) -/
def ModelSpec.evaluate (m : ModelSpec) (s : InferenceSession) (params : InferenceParameters)
    (batch : List TokenId) : InferenceSession :=
  { s with
    memory_k := m.memK params s batch
    memory_v := m.memV params s batch
    n_past := s.n_past + batch.length
    last_logits := m.logitsAt params s batch }

/-! ## feed_prompt (llama-rs/src/common/inference.rs, lines 182-212)

Note that the context-window guard in the source is commented out:
```
//if self.n_past + prompt_tokens.len() >= model.hparams.n_ctx as usize {
//return Err(InferenceError::ContextFull);
//}
```
so the embedded `feed_prompt` has no `ContextFull` path, exactly like the
code. -/

/-- Rust `slice::chunks(k)`: consecutive sub-slices of length `k`, the last
one possibly shorter.  (`chunks(0)` panics in Rust; the source only ever
calls `chunks(8)`, and the `k = 0` case is never used here.) -/
def chunks (k : Nat) (l : List α) : List (List α) :=
  if _h : l.length = 0 ∨ k = 0 then [] else l.take k :: chunks k (l.drop k)
termination_by l.length
decreasing_by
  simp only [not_or] at _h
  simp only [List.length_drop]
  omega

/-- The inner `for &tk in batch` loop of `feed_prompt`: invoke the callback
(modelled as `cb : TokenId → Bool`, `true` = `Ok`), returning
`UserCallback` on failure, otherwise push the token and continue. -/
def feedTokensLoop (cb : TokenId → Bool) :
    List TokenId → InferenceSession → InferenceSession × Option InferenceError
  | [], s => (s, none)
  | tk :: rest, s =>
    if cb tk then feedTokensLoop cb rest { s with tokens := s.tokens ++ [tk] }
    else (s, some .UserCallback)

/-- The outer `for batch in prompt_tokens.chunks(8)` loop of `feed_prompt`:
evaluate the batch, then run the per-token callback loop.  The third
component records the argument of each `model.evaluate` call made
(the batch that produced an error included). -/
def feedBatchesLoop (m : ModelSpec) (params : InferenceParameters) (cb : TokenId → Bool) :
    List (List TokenId) → InferenceSession →
      InferenceSession × Option InferenceError × List (List TokenId)
  | [], s => (s, none, [])
  | batch :: rest, s =>
    let s1 := m.evaluate s params batch
    match feedTokensLoop cb batch s1 with
    | (s2, some e) => (s2, some e, [batch])
    | (s2, none) =>
      let r := feedBatchesLoop m params cb rest s2
      (r.1, r.2.1, batch :: r.2.2)

/-- Mirrors `InferenceSession::feed_prompt`, additionally reporting the
trace of batches passed to `model.evaluate`. -/
def InferenceSession.feed_prompt_traced (s : InferenceSession) (m : ModelSpec)
    (params : InferenceParameters) (prompt : String) (cb : TokenId → Bool) :
    InferenceSession × Option InferenceError × List (List TokenId) :=
  match m.tokenize prompt (decide (s.n_past = 0)) with
  | .error e => (s, some e, [])
  | .ok prompt_tokens => feedBatchesLoop m params cb (chunks 8 prompt_tokens) s

/-- Mirrors `InferenceSession::feed_prompt` (result state and returned
`Result`; `Ok(())` is `none`). -/
def InferenceSession.feed_prompt (s : InferenceSession) (m : ModelSpec)
    (params : InferenceParameters) (prompt : String) (cb : TokenId → Bool) :
    InferenceSession × Option InferenceError :=
  let r := s.feed_prompt_traced m params prompt cb
  (r.1, r.2.1)

/-! ## infer_next_token (llama-rs/src/common/inference.rs, lines 214-245)

Here too the context guard is commented out in the source:
```
//if self.n_past + 1 >= model.hparams.n_ctx as usize {
//return Err(InferenceError::ContextFull);
//}
```
so the function always returns `Ok`. -/

/-- Mirrors `InferenceSession::infer_next_token`: sample from the stored
`last_logits`, push the sampled token, evaluate a batch of one, return the
token.  The `Option InferenceError` component is the returned `Result`
(always `Ok`, i.e. `none`). -/
def InferenceSession.infer_next_token (s : InferenceSession) (m : ModelSpec)
    (params : InferenceParameters) (rng : Nat) :
    InferenceSession × Option InferenceError × TokenId :=
  let next_token := m.sample params s rng
  let s1 := { s with tokens := s.tokens ++ [next_token] }
  let s2 := m.evaluate s1 params [next_token]
  (s2, none, next_token)

/-! ## Snapshots (llama-rs/src/common/inference.rs, lines 44-83 and 309-346)

`InferenceSnapshotRef` (serialized) and `InferenceSnapshot` (deserialized)
have the same field layout, so both are modelled by one record.
`InferenceSnapshotRef::write` is `bincode::serialize_into` and
`InferenceSnapshot::read` is `bincode::deserialize_from`; the `bincode`
crate (default options: fixed-width little-endian integers, `u64` sequence
length prefixes, `u32` enum variant tags, `serde_bytes` as a length-prefixed
raw byte run) is modelled byte-for-byte below. -/

/-- Field layout shared by `InferenceSnapshotRef` and `InferenceSnapshot`.
`last_logits` holds 32-bit patterns of the `f32` values, `memory_k` /
`memory_v` the raw tensor bytes. -/
structure InferenceSnapshotData where
  npast : Nat
  session_params : InferenceSessionParameters
  tokens : List TokenId
  last_logits : List Nat
  memory_k : List Nat
  memory_v : List Nat
  deriving DecidableEq, Repr

/-- Mirrors `InferenceSession::get_snapshot`: project the observable session
fields (`memory_k`/`memory_v` read as raw bytes via `data()`/`nbytes()`). -/
def InferenceSession.get_snapshot (s : InferenceSession) : InferenceSnapshotData :=
  { npast := s.n_past
    session_params := s.params
    tokens := s.tokens
    last_logits := s.last_logits
    memory_k := s.memory_k
    memory_v := s.memory_v }

/-- `w`-byte little-endian encoding of a natural number. -/
def natToBytesLE : Nat → Nat → List Nat
  | 0, _ => []
  | w + 1, x => x % 256 :: natToBytesLE w (x / 256)

/-- Value of a little-endian byte run. -/
def bytesToNatLE : List Nat → Nat
  | [] => 0
  | b :: bs => b + 256 * bytesToNatLE bs

/-- Read exactly `w` bytes off the front of a stream. -/
def readBytes (w : Nat) (b : List Nat) : Option (List Nat × List Nat) :=
  if w ≤ b.length then some (b.take w, b.drop w) else none

/-- bincode: `u64`, fixed 8 bytes little-endian (used for `usize` fields and
all sequence lengths). -/
def encU64 (x : Nat) : List Nat := natToBytesLE 8 x

/-- bincode: decode a `u64`. -/
def decU64 (b : List Nat) : Option (Nat × List Nat) :=
  (readBytes 8 b).map fun p => (bytesToNatLE p.1, p.2)

/-- bincode: `u32`, fixed 4 bytes little-endian (enum variant tags; also the
bit pattern of an `f32`, which bincode writes as its 4 raw bytes). -/
def encU32 (x : Nat) : List Nat := natToBytesLE 4 x

/-- bincode: decode a `u32`. -/
def decU32 (b : List Nat) : Option (Nat × List Nat) :=
  (readBytes 4 b).map fun p => (bytesToNatLE p.1, p.2)

/-- bincode: `i32`, 4 bytes little-endian two's complement. -/
def encI32 (t : Int) : List Nat := natToBytesLE 4 (t % (2 ^ 32)).toNat

/-- bincode: decode an `i32`. -/
def decI32 (b : List Nat) : Option (Int × List Nat) :=
  (decU32 b).map fun p =>
    (if p.1 < 2 ^ 31 then (p.1 : Int) else (p.1 : Int) - 2 ^ 32, p.2)

/-- Concatenation of the encodings of successive elements. -/
def encEach (f : α → List Nat) : List α → List Nat
  | [] => []
  | a :: l => f a ++ encEach f l

/-- Decode exactly `n` successive elements. -/
def decEach (f : List Nat → Option (α × List Nat)) :
    Nat → List Nat → Option (List α × List Nat)
  | 0, b => some ([], b)
  | n + 1, b =>
    match f b with
    | none => none
    | some (x, r) =>
      match decEach f n r with
      | none => none
      | some (xs, r2) => some (x :: xs, r2)

/-- bincode: a `Vec<T>` — `u64` length then the elements. -/
def encSeq (f : α → List Nat) (l : List α) : List Nat :=
  encU64 l.length ++ encEach f l

/-- bincode: decode a `Vec<T>`. -/
def decSeq (f : List Nat → Option (α × List Nat)) (b : List Nat) :
    Option (List α × List Nat) :=
  match decU64 b with
  | none => none
  | some (n, r) => decEach f n r

/-- bincode: a `serde_bytes` byte slice — `u64` length then the raw bytes. -/
def encByteBuf (bytes : List Nat) : List Nat := encU64 bytes.length ++ bytes

/-- bincode: decode a `serde_bytes` byte buffer. -/
def decByteBuf (b : List Nat) : Option (List Nat × List Nat) :=
  match decU64 b with
  | none => none
  | some (n, r) => readBytes n r

/-- bincode: a unit enum variant is its `u32` index (`Float16 = 0`,
`Float32 = 1`, declaration order in the source). -/
def encKVType : ModelKVMemoryType → List Nat
  | .Float16 => encU32 0
  | .Float32 => encU32 1

/-- bincode: decode a `ModelKVMemoryType`. -/
def decKVType (b : List Nat) : Option (ModelKVMemoryType × List Nat) :=
  match decU32 b with
  | none => none
  | some (0, r) => some (.Float16, r)
  | some (1, r) => some (.Float32, r)
  | some _ => none

/-- bincode: `InferenceSessionParameters`, fields in declaration order. -/
def encParams (p : InferenceSessionParameters) : List Nat :=
  encU64 p.repetition_penalty_last_n ++ encKVType p.memory_k_type ++ encKVType p.memory_v_type

/-- bincode: decode an `InferenceSessionParameters`. -/
def decParams (b : List Nat) : Option (InferenceSessionParameters × List Nat) :=
  match decU64 b with
  | none => none
  | some (n, r) =>
    match decKVType r with
    | none => none
    | some (kt, r2) =>
      match decKVType r2 with
      | none => none
      | some (vt, r3) => some (⟨n, kt, vt⟩, r3)

/-- Mirrors `InferenceSnapshotRef::write`: `bincode::serialize_into` of the
fields in declaration order (`npast`, `session_params`, `tokens`, `logits`,
`memory_k`, `memory_v`). -/
def InferenceSnapshotRef.write (d : InferenceSnapshotData) : List Nat :=
  encU64 d.npast ++ encParams d.session_params ++ encSeq encI32 d.tokens ++
    encSeq encU32 d.last_logits ++ encByteBuf d.memory_k ++ encByteBuf d.memory_v

/-- Mirrors `InferenceSnapshot::read`: `bincode::deserialize_from`, fields in
declaration order. -/
def InferenceSnapshot.read (b : List Nat) : Option InferenceSnapshotData :=
  match decU64 b with
  | none => none
  | some (npast, r1) =>
    match decParams r1 with
    | none => none
    | some (params, r2) =>
      match decSeq decI32 r2 with
      | none => none
      | some (tokens, r3) =>
        match decSeq decU32 r3 with
        | none => none
        | some (logits, r4) =>
          match decByteBuf r4 with
          | none => none
          | some (mk, r5) =>
            match decByteBuf r5 with
            | none => none
            | some (mv, _) => some ⟨npast, params, tokens, logits, mk, mv⟩

/-- Well-formedness of a snapshot as produced from a real process: all
counters and lengths fit in `usize`/`u64`, token ids are `i32` values,
logits bit patterns are 32-bit, and the memory dumps are bytes. -/
def SnapWF (d : InferenceSnapshotData) : Prop :=
  d.npast < 2 ^ 64 ∧ d.session_params.repetition_penalty_last_n < 2 ^ 64 ∧
    d.tokens.length < 2 ^ 64 ∧ (∀ t ∈ d.tokens, -2 ^ 31 ≤ t ∧ t < 2 ^ 31) ∧
    d.last_logits.length < 2 ^ 64 ∧ (∀ x ∈ d.last_logits, x < 2 ^ 32) ∧
    d.memory_k.length < 2 ^ 64 ∧ (∀ x ∈ d.memory_k, x < 256) ∧
    d.memory_v.length < 2 ^ 64 ∧ (∀ x ∈ d.memory_v, x < 256)

instance (d : InferenceSnapshotData) : Decidable (SnapWF d) := by
  unfold SnapWF; infer_instance

/-! ## Multipart pre-check in `load` (crates/llm-base/src/loader.rs, lines 300-308) -/

/-- A file name, as its character sequence (the contents of a `PathBuf`). -/
abbrev PathName := List Char

/-- The load-error variants reachable from the multipart pre-check. -/
inductive LoadErr where
  | MultipartNotSupported (paths : List PathName)
  deriving DecidableEq, Repr

/-- Modelled from the spec: `util::find_all_model_files` (the `util` module is
not among the extracted sources).  Per §4.2 "enumerate sibling files by name
prefix": the result is the main path together with every sibling directory
entry whose file name strictly extends the main file's name (the numbered
multipart pieces such as `model.bin.1`). -/
def find_all_model_files (mainPath : PathName) (siblings : List PathName) : List PathName :=
  mainPath :: siblings.filter fun f => mainPath.isPrefixOf f && f != mainPath

/-- Mirrors the pre-check at the top of `load`:
`let paths = util::find_all_model_files(path)?;
 if paths.len() != 1 { return Err(LoadError::MultipartNotSupported { paths }); }`.
`.ok ()` stands for the rest of `load` proceeding. -/
def loadMultipartCheck (mainPath : PathName) (siblings : List PathName) :
    Except LoadErr Unit :=
  let paths := find_all_model_files mainPath siblings
  if paths.length ≠ 1 then .error (.MultipartNotSupported paths) else .ok ()

/-! ## The BLOOM compute graph (crates/models/bloom/src/lib.rs, `Bloom::evaluate`)

The graph built by `Bloom::evaluate` is embedded as a symbolic tensor
expression tree whose constructors are the `ggml` context ops invoked by
the source, in the same order with the same arguments.  The source file
contains an unresolved merge conflict; the embedding follows the only
resolution that parses (the `main` side, which obtains `(ctx0, embd)` from
`common::prepare_for_evaluate` and has no `embeddings_tensor` binding —
the `HEAD` side references an undeclared `embeddings_tensor` and declares
`gf` twice).  Both sides agree that `embd` is the 1-D `I32` tensor holding
`input_tokens` (the `HEAD` side constructs it explicitly via
`new_tensor_1d(Type::I32, n)` + `write_data(input_tokens)`). -/

/-- Symbolic scalar operands (`ctx0.new_f32(...)`). -/
inductive ScalarVal where
  /-- `1.0 / f32::sqrt(n_embd as f32 / n_head as f32)` -/
  | invSqrtHeadDim (n_embd n_head : Nat)
  deriving DecidableEq, Repr

/-- Symbolic ggml tensor expressions: exactly the ops `Bloom::evaluate`
invokes.  `view2d` records, in place of the raw stride argument
`nb : usize`, the tensor whose `get_nb()[1]` the source passes. -/
inductive TExpr where
  | inputTokens
  | memoryK
  | memoryV
  | globalWeight (name : String)
  | layerWeight (il : Nat) (name : String)
  | newTensor2dF32 (ne0 ne1 : Nat)
  | newTensor3dF32 (ne0 ne1 ne2 : Nat)
  | newF32 (v : ScalarVal)
  | getRows (a b : TExpr)
  | norm (a : TExpr)
  | mul (a b : TExpr)
  | add (a b : TExpr)
  | repeatTo (a b : TExpr)
  | mulMat (a b : TExpr)
  | view1d (a : TExpr) (ne0 offset : Nat)
  | view2d (a : TExpr) (ne0 ne1 : Nat) (nbFrom : TExpr) (offset : Nat)
  | view3d (a : TExpr) (ne0 ne1 ne2 nb1 nb2 offset : Nat)
  | cpy (src dst : TExpr)
  | permute (a : TExpr) (a0 a1 a2 a3 : Nat)
  | reshape3d (a : TExpr) (ne0 ne1 ne2 : Nat)
  | scale (a b : TExpr)
  | alibi (a : TExpr) (n_past n_head : Nat)
  | diagMaskInf (a : TExpr) (n_past : Nat)
  | softMax (a : TExpr)
  | gelu (a : TExpr)
  deriving DecidableEq, Repr

/-- The scalars of one `Bloom::evaluate` call: `n = input_tokens.len()`,
`n_past = session.n_past`, `n_ctx = self.n_context_tokens`, the
hyperparameters, and `eltK`/`eltV` = `session.memory_k/v.element_size()`. -/
structure BloomCfg where
  n : Nat
  n_past : Nat
  n_ctx : Nat
  n_vocab : Nat
  n_embd : Nat
  n_head : Nat
  n_layer : Nat
  eltK : Nat
  eltV : Nat
  deriving DecidableEq, Repr

/-- `std::mem::size_of::<f32>()`. -/
def sizeOfF32 : Nat := 4

/-- The "store key and value to memory" block (lines 240-256): under
`if n >= 1`, the two `op_cpy` nodes into 1-D views of `memory_k` /
`memory_v`, exactly as pushed into the graph via `build_forward_expand`. -/
def bloomKVWriteOps (cfg : BloomCfg) (il : Nat) (k_current v_current : TExpr) :
    List TExpr :=
  if 1 ≤ cfg.n then
    [TExpr.cpy k_current
        (.view1d .memoryK (cfg.n * cfg.n_embd)
          (cfg.eltK * cfg.n_embd * (il * cfg.n_ctx + cfg.n_past))),
      TExpr.cpy v_current
        (.view1d .memoryV (cfg.n * cfg.n_embd)
          (cfg.eltV * cfg.n_embd * (il * cfg.n_ctx + cfg.n_past)))]
  else []

/-- Lines 258-305: from `q_current` to `k_q_soft_max` — `Q` and `K` built by
copy/view + reshape + permute, then `K·Q`, scaling, ALiBi, causal mask,
row-wise softmax, each as one ggml op in source order. -/
def bloomAttnScores (cfg : BloomCfg) (il : Nat) (q_current : TExpr) : TExpr :=
  let big_q := TExpr.permute
    (.cpy q_current (.newTensor3dF32 (cfg.n_embd / cfg.n_head) cfg.n_head cfg.n)) 0 2 1 3
  let big_k := TExpr.permute
    (.reshape3d
      (.view1d .memoryK ((cfg.n_past + cfg.n) * cfg.n_embd)
        (il * cfg.n_ctx * cfg.eltK * cfg.n_embd))
      (cfg.n_embd / cfg.n_head) cfg.n_head (cfg.n_past + cfg.n)) 0 2 1 3
  let k_q := TExpr.mulMat big_k big_q
  let k_q_scaled := TExpr.scale k_q (.newF32 (.invSqrtHeadDim cfg.n_embd cfg.n_head))
  let k_q_scaled_alibi := TExpr.alibi k_q_scaled cfg.n_past cfg.n_head
  let k_q_masked := TExpr.diagMaskInf k_q_scaled_alibi cfg.n_past
  TExpr.softMax k_q_masked

/-- One iteration of the `for il in 0..n_layer` loop (lines 189-391):
returns the layer output and the KV-write ops expanded into the graph. -/
def bloomLayerStep (cfg : BloomCfg) (il : Nat) (input_layer : TExpr) :
    TExpr × List TExpr :=
  let input_self_attention := input_layer
  -- norm
  let current := TExpr.norm input_layer
  let current := TExpr.mul (.repeatTo (.layerWeight il "attention_norm.weight") current) current
  let current := TExpr.add (.repeatTo (.layerWeight il "attention_norm.bias") current) current
  -- attention (fused qkv)
  let current := TExpr.mulMat (.layerWeight il "attention.query_key_value.weight") current
  let current := TExpr.add
    (.repeatTo (.layerWeight il "attention.query_key_value.bias") current) current
  -- self-attention
  let q_current := TExpr.view2d current cfg.n_embd cfg.n current 0
  let k_current := TExpr.view2d current cfg.n_embd cfg.n current (sizeOfF32 * cfg.n_embd)
  let v_current := TExpr.view2d current cfg.n_embd cfg.n current (2 * sizeOfF32 * cfg.n_embd)
  let kvOps := bloomKVWriteOps cfg il k_current v_current
  let k_q_soft_max := bloomAttnScores cfg il q_current
  let memv_elsize := cfg.eltV
  let big_v := TExpr.view3d .memoryV
    (cfg.n_past + cfg.n) (cfg.n_embd / cfg.n_head) cfg.n_head
    (cfg.n_ctx * memv_elsize) (cfg.n_ctx * memv_elsize * cfg.n_embd / cfg.n_head)
    (il * cfg.n_ctx * memv_elsize * cfg.n_embd)
  let k_q_v := TExpr.mulMat big_v k_q_soft_max
  let k_q_v_merged := TExpr.permute k_q_v 0 2 1 3
  let current := TExpr.cpy k_q_v_merged (.newTensor2dF32 cfg.n_embd cfg.n)
  -- projection
  let current := TExpr.mulMat (.layerWeight il "attention.wo.weight") current
  let current := TExpr.add (.repeatTo (.layerWeight il "attention.wo.bias") current) current
  let input_feed_forward := TExpr.add current input_self_attention
  -- feed-forward network
  let current := TExpr.norm input_feed_forward
  let current := TExpr.mul (.repeatTo (.layerWeight il "ffn_norm.weight") current) current
  let current := TExpr.add (.repeatTo (.layerWeight il "ffn_norm.bias") current) current
  let current := TExpr.mulMat (.layerWeight il "feed_forward.w1.weight") current
  let current := TExpr.add (.repeatTo (.layerWeight il "feed_forward.w1.bias") current) current
  let current := TExpr.gelu current
  let current := TExpr.mulMat (.layerWeight il "feed_forward.w2.weight") current
  let current := TExpr.add (.repeatTo (.layerWeight il "feed_forward.w2.bias") current) current
  let current := TExpr.add current input_feed_forward
  (current, kvOps)

/-- The layer loop, starting at layer `il` for `fuel` layers, threading
`input_layer` and accumulating the expanded KV-write ops. -/
def bloomLayersFrom (cfg : BloomCfg) (il fuel : Nat) (input_layer : TExpr) :
    TExpr × List TExpr :=
  match fuel with
  | 0 => (input_layer, [])
  | fuel + 1 =>
    let r := bloomLayerStep cfg il input_layer
    let r2 := bloomLayersFrom cfg (il + 1) fuel r.1
    (r2.1, r.2 ++ r2.2)

/-- The final norm block (lines 393-412): `norm`, scale by
`output_norm`, add `output_norm_b`.  Its output is the pre-`lm_head`
activation tensor ("the values entering the output projection"). -/
def bloomFinalNorm (input_layer : TExpr) : TExpr :=
  let x := TExpr.norm input_layer
  let x := TExpr.mul (.repeatTo (.globalWeight "output_norm.weight") x) x
  TExpr.add (.repeatTo (.globalWeight "output_norm.bias") x) x

/-- What one `Bloom::evaluate` call hands to the graph and to the
`common::*` output helpers: the graph root (`lm_head` output), the KV-write
ops, and the tensors passed to `read_last_token`, `extract_logits` and
`extract_embeddings` respectively. -/
structure BloomOutputs where
  graphOutput : TExpr
  kvWriteOps : List TExpr
  readLastTokenSrc : TExpr
  logitsSrc : TExpr
  embeddingsSrc : TExpr
  deriving DecidableEq, Repr

/-- Mirrors `Bloom::evaluate` (lines 139-428): `embd` is the input-token
tensor, `input_layer` is threaded through the word-embedding norm, the
layer loop, the final norm and the `lm_head` matmul; then
`read_last_token(session, &input_layer, ..)`,
`extract_logits(output_request, &input_layer, ..)`, and
`extract_embeddings(output_request, &embd, ..)` are called. -/
def Bloom.evaluate (cfg : BloomCfg) : BloomOutputs :=
  let embd := TExpr.inputTokens
  let input_layer := TExpr.getRows (.globalWeight "tok_embeddings.weight") embd
  -- word embeddings norm
  let input_layer := TExpr.norm input_layer
  let input_layer := TExpr.mul (.repeatTo (.globalWeight "norm.weight") input_layer) input_layer
  let input_layer := TExpr.add (.repeatTo (.globalWeight "norm.bias") input_layer) input_layer
  let r := bloomLayersFrom cfg 0 cfg.n_layer input_layer
  let input_layer := bloomFinalNorm r.1
  -- lm_head
  let input_layer := TExpr.mulMat (.globalWeight "output.weight") input_layer
  { graphOutput := input_layer
    kvWriteOps := r.2
    readLastTokenSrc := input_layer
    logitsSrc := input_layer
    embeddingsSrc := embd }

/-! ## Claim-side and auxiliary definitions -/

/-- Destination of a graph copy node (`op_cpy(src, dst)` writes into `dst`). -/
def cpyDst : TExpr → TExpr
  | .cpy _ d => d
  | e => e

/-- The KV-cache destination views the specification claims for layer `l`:
`n·n_embd` elements at byte offset `(l·n_context + n_past)·n_embd·element_size`
into `memory_k` and `memory_v`, present exactly when `n ≥ 1`. -/
def claimedKVDsts (cfg : BloomCfg) (l : Nat) : List TExpr :=
  if 1 ≤ cfg.n then
    [TExpr.view1d .memoryK (cfg.n * cfg.n_embd)
      ((l * cfg.n_ctx + cfg.n_past) * cfg.n_embd * cfg.eltK),
     TExpr.view1d .memoryV (cfg.n * cfg.n_embd)
      ((l * cfg.n_ctx + cfg.n_past) * cfg.n_embd * cfg.eltV)]
  else []

/-- The stages of the attention-score pipeline, in application order. -/
inductive AttnStage where
  | kqProduct
  | scaleStage
  | alibiStage
  | maskStage
  | softmaxStage
  deriving DecidableEq, Repr

/-- Read the attention-score pipeline off a tensor expression, innermost
(first-applied) op first; stops at the `K·Q` matmul. -/
def attnPipeline : TExpr → List AttnStage
  | .softMax a => attnPipeline a ++ [.softmaxStage]
  | .diagMaskInf a _ => attnPipeline a ++ [.maskStage]
  | .alibi a _ _ => attnPipeline a ++ [.alibiStage]
  | .scale a _ => attnPipeline a ++ [.scaleStage]
  | .mulMat _ _ => [.kqProduct]
  | _ => []

/-! ## Concrete instances (used in counterexamples and witnesses) -/

/-- The `Default for InferenceParameters` values from the source. -/
def ipDefault : InferenceParameters :=
  { n_threads := 8, n_batch := 8, top_k := 40, top_p := 0, repeat_penalty := 0,
    temp := 0, bias_tokens := [], play_back_previous_tokens := false,
    increased_determinism := true }

/-- Default parameters with `n_batch = 3`. -/
def ipBatch3 : InferenceParameters := { ipDefault with n_batch := 3 }

/-- A fresh session (default session parameters, nothing fed yet). -/
def sessionFresh : InferenceSession :=
  { params := { repetition_penalty_last_n := 512, memory_k_type := .Float32,
                memory_v_type := .Float32 },
    memory_k := [], memory_v := [], n_past := 0, mem_per_token := 0,
    tokens := [], last_logits := [] }

/-- A tiny test model: context window 8, vocabulary 2, fixed tokenization. -/
def modelTok (toks : List TokenId) : ModelSpec :=
  { n_vocab := 2, n_ctx := 8,
    tokenize := fun _ _ => .ok toks,
    logitsAt := fun _ _ _ => [0, 0],
    memK := fun _ s _ => s.memory_k,
    memV := fun _ s _ => s.memory_v,
    sample := fun _ _ _ => 0 }

/-- A small session with a non-trivial snapshot. -/
def sessionSnap : InferenceSession :=
  { params := { repetition_penalty_last_n := 2, memory_k_type := .Float16,
                memory_v_type := .Float32 },
    memory_k := [1, 255, 0], memory_v := [7], n_past := 3, mem_per_token := 9,
    tokens := [5, -3, 0], last_logits := [0, 4294967295] }

/-- A session with fewer stored tokens than `repetition_penalty_last_n`. -/
def sessionShort : InferenceSession :=
  { params := { repetition_penalty_last_n := 5, memory_k_type := .Float32,
                memory_v_type := .Float32 },
    memory_k := [], memory_v := [], n_past := 2, mem_per_token := 0,
    tokens := [11, 12], last_logits := [0, 0] }

/-- A small BLOOM configuration. -/
def cfgSmall : BloomCfg :=
  { n := 2, n_past := 3, n_ctx := 8, n_vocab := 5, n_embd := 4, n_head := 2,
    n_layer := 2, eltK := 4, eltV := 4 }

/-! ## Helper lemmas -/

theorem chunks_nil (k : Nat) : chunks k ([] : List α) = [] := by
  unfold chunks
  simp

theorem chunks_cons (k : Nat) (hk : k ≠ 0) (a : α) (l : List α) :
    chunks k (a :: l) = (a :: l).take k :: chunks k ((a :: l).drop k) := by
  rw [chunks]
  simp [hk]

theorem chunks_join (k : Nat) (hk : k ≠ 0) (l : List α) : (chunks k l).flatten = l := by
  generalize hn : l.length = n
  induction n using Nat.strong_induction_on generalizing l with
  | _ n ih =>
    cases l with
    | nil => simp [chunks_nil]
    | cons a t =>
      rw [chunks_cons k hk]
      have hlt : ((a :: t).drop k).length < n := by
        simp only [List.length_drop]
        subst hn
        simp only [List.length_cons]
        omega
      rw [List.flatten, ih _ hlt _ rfl, List.take_append_drop]

theorem chunks_mem_length (k : Nat) (hk : k ≠ 0) (l : List α) :
    ∀ c ∈ chunks k l, c ≠ [] ∧ c.length ≤ k := by
  generalize hn : l.length = n
  induction n using Nat.strong_induction_on generalizing l with
  | _ n ih =>
    cases l with
    | nil => simp [chunks_nil]
    | cons a t =>
      rw [chunks_cons k hk]
      intro c hc
      rcases List.mem_cons.mp hc with h | h
      · subst h
        constructor
        · cases k with
          | zero => exact absurd rfl hk
          | succ k2 => simp [List.take]
        · simp only [List.length_take]
          omega
      · exact ih ((a :: t).drop k).length
          (by simp only [List.length_drop]; subst hn; simp only [List.length_cons]; omega)
          _ rfl c h

theorem feedTokensLoop_n_past (cb : TokenId → Bool) (b : List TokenId) (s : InferenceSession) :
    (feedTokensLoop cb b s).1.n_past = s.n_past := by
  induction b generalizing s with
  | nil => rfl
  | cons tk rest ih =>
    unfold feedTokensLoop
    by_cases h : cb tk <;> simp [h, ih]

theorem feedTokensLoop_logits (cb : TokenId → Bool) (b : List TokenId) (s : InferenceSession) :
    (feedTokensLoop cb b s).1.last_logits = s.last_logits := by
  induction b generalizing s with
  | nil => rfl
  | cons tk rest ih =>
    unfold feedTokensLoop
    by_cases h : cb tk <;> simp [h, ih]

theorem feedTokensLoop_tokens_ok (cb : TokenId → Bool) (b : List TokenId)
    (s : InferenceSession) (h : (feedTokensLoop cb b s).2 = none) :
    (feedTokensLoop cb b s).1.tokens = s.tokens ++ b := by
  induction b generalizing s with
  | nil => simp [feedTokensLoop]
  | cons tk rest ih =>
    unfold feedTokensLoop at h ⊢
    by_cases hcb : cb tk
    · simp only [hcb, if_true] at h ⊢
      rw [ih _ h]
      simp
    · simp [hcb] at h

theorem feedBatchesLoop_n_past (m : ModelSpec) (params : InferenceParameters)
    (cb : TokenId → Bool) (batches : List (List TokenId)) (s : InferenceSession) :
    (feedBatchesLoop m params cb batches s).1.n_past =
      s.n_past + (feedBatchesLoop m params cb batches s).2.2.flatten.length := by
  induction batches generalizing s with
  | nil => simp [feedBatchesLoop]
  | cons batch rest ih =>
    unfold feedBatchesLoop
    rcases hf : feedTokensLoop cb batch (m.evaluate s params batch) with ⟨s2, eo⟩
    have hnp : s2.n_past = s.n_past + batch.length := by
      have := feedTokensLoop_n_past cb batch (m.evaluate s params batch)
      rw [hf] at this
      simpa [ModelSpec.evaluate] using this
    cases eo with
    | some e => simp [hf, hnp]
    | none =>
      simp only [hf]
      simp only [List.flatten_cons, List.length_append]
      rw [ih s2, hnp]
      omega

theorem feedBatchesLoop_ok_trace (m : ModelSpec) (params : InferenceParameters)
    (cb : TokenId → Bool) (batches : List (List TokenId)) (s : InferenceSession)
    (h : (feedBatchesLoop m params cb batches s).2.1 = none) :
    (feedBatchesLoop m params cb batches s).2.2 = batches := by
  induction batches generalizing s with
  | nil => simp [feedBatchesLoop]
  | cons batch rest ih =>
    unfold feedBatchesLoop at h ⊢
    rcases hf : feedTokensLoop cb batch (m.evaluate s params batch) with ⟨s2, eo⟩
    simp only [hf] at h ⊢
    cases eo with
    | some e => simp at h
    | none => simp [ih s2 (by simpa using h)]

theorem feedBatchesLoop_ok_tokens (m : ModelSpec) (params : InferenceParameters)
    (cb : TokenId → Bool) (batches : List (List TokenId)) (s : InferenceSession)
    (h : (feedBatchesLoop m params cb batches s).2.1 = none) :
    (feedBatchesLoop m params cb batches s).1.tokens = s.tokens ++ batches.flatten := by
  induction batches generalizing s with
  | nil => simp [feedBatchesLoop]
  | cons batch rest ih =>
    unfold feedBatchesLoop at h ⊢
    rcases hf : feedTokensLoop cb batch (m.evaluate s params batch) with ⟨s2, eo⟩
    simp only [hf] at h ⊢
    cases eo with
    | some e => simp at h
    | none =>
      have htk : s2.tokens = s.tokens ++ batch := by
        have h2 : (feedTokensLoop cb batch (m.evaluate s params batch)).2 = none := by
          rw [hf]
        have := feedTokensLoop_tokens_ok cb batch (m.evaluate s params batch) h2
        rw [hf] at this
        simpa [ModelSpec.evaluate] using this
      rw [ih s2 (by simpa using h), htk]
      simp

theorem feedBatchesLoop_logits_len (m : ModelSpec) (params : InferenceParameters)
    (cb : TokenId → Bool) (batches : List (List TokenId)) (s : InferenceSession)
    (hm : ∀ p st b, (m.logitsAt p st b).length = m.n_vocab) (hne : batches ≠ []) :
    (feedBatchesLoop m params cb batches s).1.last_logits.length = m.n_vocab := by
  induction batches generalizing s with
  | nil => exact absurd rfl hne
  | cons batch rest ih =>
    unfold feedBatchesLoop
    rcases hf : feedTokensLoop cb batch (m.evaluate s params batch) with ⟨s2, eo⟩
    have hlg : s2.last_logits = m.logitsAt params s batch := by
      have := feedTokensLoop_logits cb batch (m.evaluate s params batch)
      rw [hf] at this
      simpa [ModelSpec.evaluate] using this
    cases eo with
    | some e => simp [hf, hlg, hm]
    | none =>
      cases rest with
      | nil => simp [feedBatchesLoop, hf, hlg, hm]
      | cons b2 r2 =>
        simp only [hf]
        simpa using ih s2 (by simp)

theorem length_natToBytesLE (w : Nat) : ∀ x, (natToBytesLE w x).length = w := by
  induction w with
  | zero => intro x; rfl
  | succ w ih => intro x; simp [natToBytesLE, ih]

theorem bytesToNatLE_natToBytesLE (w : Nat) :
    ∀ x, x < 256 ^ w → bytesToNatLE (natToBytesLE w x) = x := by
  induction w with
  | zero =>
    intro x hx
    interval_cases x
    rfl
  | succ w ih =>
    intro x hx
    have hdiv : x / 256 < 256 ^ w := by
      rw [Nat.div_lt_iff_lt_mul (by norm_num)]
      calc x < 256 ^ (w + 1) := hx
        _ = 256 ^ w * 256 := by rw [pow_succ]
    simp only [natToBytesLE, bytesToNatLE, ih _ hdiv]
    omega

theorem readBytes_append (b rest : List Nat) : readBytes b.length (b ++ rest) = some (b, rest) := by
  simp [readBytes, List.take_left, List.drop_left]

theorem decU64_encU64 (x : Nat) (r : List Nat) (h : x < 2 ^ 64) :
    decU64 (encU64 x ++ r) = some (x, r) := by
  have h8 : (natToBytesLE 8 x).length = 8 := length_natToBytesLE 8 x
  have := readBytes_append (natToBytesLE 8 x) r
  rw [h8] at this
  simp [decU64, encU64, this, bytesToNatLE_natToBytesLE 8 x (by norm_num at h ⊢; omega)]

theorem decU32_encU32 (x : Nat) (r : List Nat) (h : x < 2 ^ 32) :
    decU32 (encU32 x ++ r) = some (x, r) := by
  have h4 : (natToBytesLE 4 x).length = 4 := length_natToBytesLE 4 x
  have := readBytes_append (natToBytesLE 4 x) r
  rw [h4] at this
  simp [decU32, encU32, this, bytesToNatLE_natToBytesLE 4 x (by norm_num at h ⊢; omega)]

theorem decI32_encI32 (t : Int) (r : List Nat) (h1 : -2 ^ 31 ≤ t) (h2 : t < 2 ^ 31) :
    decI32 (encI32 t ++ r) = some (t, r) := by
  have hn : (t % 2 ^ 32).toNat < 2 ^ 32 := by omega
  have he : encI32 t = encU32 (t % 2 ^ 32).toNat := rfl
  rw [decI32, he, decU32_encU32 _ r hn]
  refine congrArg some (Prod.ext ?_ rfl)
  simp only []
  split <;> omega

theorem decEach_encEach (f : List Nat → Option (α × List Nat)) (g : α → List Nat)
    (l : List α) (r : List Nat) (h : ∀ a ∈ l, ∀ r2, f (g a ++ r2) = some (a, r2)) :
    decEach f l.length (encEach g l ++ r) = some (l, r) := by
  induction l generalizing r with
  | nil => simp [decEach, encEach]
  | cons a l ih =>
    have hstep := h a (List.mem_cons_self a l) (encEach g l ++ r)
    simp only [encEach, List.length_cons, decEach, List.append_assoc, hstep,
      ih r fun a2 ha2 => h a2 (List.mem_cons_of_mem a ha2)]

theorem decSeq_encSeq (f : List Nat → Option (α × List Nat)) (g : α → List Nat)
    (l : List α) (r : List Nat) (hlen : l.length < 2 ^ 64)
    (h : ∀ a ∈ l, ∀ r2, f (g a ++ r2) = some (a, r2)) :
    decSeq f (encSeq g l ++ r) = some (l, r) := by
  simp only [decSeq, encSeq, List.append_assoc,
    decU64_encU64 l.length _ hlen, decEach_encEach f g l r h]

theorem decByteBuf_encByteBuf (bytes r : List Nat) (h : bytes.length < 2 ^ 64) :
    decByteBuf (encByteBuf bytes ++ r) = some (bytes, r) := by
  simp only [decByteBuf, encByteBuf, List.append_assoc, decU64_encU64 bytes.length _ h,
    readBytes_append]

theorem decKVType_encKVType (t : ModelKVMemoryType) (r : List Nat) :
    decKVType (encKVType t ++ r) = some (t, r) := by
  cases t <;>
    simp [decKVType, encKVType, decU32_encU32 0 r (by norm_num), decU32_encU32 1 r (by norm_num)]

theorem decParams_encParams (p : InferenceSessionParameters) (r : List Nat)
    (h : p.repetition_penalty_last_n < 2 ^ 64) :
    decParams (encParams p ++ r) = some (p, r) := by
  simp only [decParams, encParams, List.append_assoc, decU64_encU64 _ _ h,
    decKVType_encKVType]

theorem bloomLayerStep_kv_dsts (cfg : BloomCfg) (il : Nat) (x : TExpr) :
    (bloomLayerStep cfg il x).2.map cpyDst = claimedKVDsts cfg il := by
  simp only [bloomLayerStep, bloomKVWriteOps, claimedKVDsts]
  by_cases h : 1 ≤ cfg.n
  · simp only [if_pos h, List.map_cons, List.map_nil, cpyDst, List.cons.injEq,
      TExpr.view1d.injEq]
    ring_nf
    simp
  · simp [if_neg h]

theorem bloomLayersFrom_kv_dsts (cfg : BloomCfg) :
    ∀ (fuel il : Nat) (x : TExpr),
      (bloomLayersFrom cfg il fuel x).2.map cpyDst =
        ((List.range fuel).map fun j => claimedKVDsts cfg (il + j)).flatten := by
  intro fuel
  induction fuel with
  | zero => intro il x; simp [bloomLayersFrom]
  | succ fuel ih =>
    intro il x
    have hmap : ((List.range (fuel + 1)).map fun j => claimedKVDsts cfg (il + j)) =
        claimedKVDsts cfg il ::
          ((List.range fuel).map fun j => claimedKVDsts cfg (il + 1 + j)) := by
      rw [List.range_succ_eq_map, List.map_cons, List.map_map]
      congr 1
      apply List.map_congr_left
      intro a ha
      show claimedKVDsts cfg (il + (a + 1)) = claimedKVDsts cfg (il + 1 + a)
      congr 1
      omega
    calc (bloomLayersFrom cfg il (fuel + 1) x).2.map cpyDst
        = claimedKVDsts cfg il ++
            ((List.range fuel).map fun j => claimedKVDsts cfg (il + 1 + j)).flatten := by
          simp only [bloomLayersFrom, List.map_append, bloomLayerStep_kv_dsts,
            ih (il + 1) (bloomLayerStep cfg il x).1]
      _ = (((List.range (fuel + 1)).map fun j => claimedKVDsts cfg (il + j))).flatten := by
          rw [hmap, List.flatten_cons]

theorem feedTokensLoop_all_ok (cb : TokenId → Bool) (hcb : ∀ t, cb t = true)
    (b : List TokenId) (s : InferenceSession) : (feedTokensLoop cb b s).2 = none := by
  induction b generalizing s with
  | nil => rfl
  | cons tk rest ih =>
    unfold feedTokensLoop
    simp [hcb tk, ih]

theorem feedBatchesLoop_all_ok (m : ModelSpec) (params : InferenceParameters)
    (cb : TokenId → Bool) (hcb : ∀ t, cb t = true) (batches : List (List TokenId))
    (s : InferenceSession) : (feedBatchesLoop m params cb batches s).2.1 = none := by
  induction batches generalizing s with
  | nil => rfl
  | cons batch rest ih =>
    unfold feedBatchesLoop
    rcases hf : feedTokensLoop cb batch (m.evaluate s params batch) with ⟨s2, eo⟩
    have : eo = none := by
      have := feedTokensLoop_all_ok cb hcb batch (m.evaluate s params batch)
      rw [hf] at this
      exact this
    subst this
    simp [hf, ih]

theorem chunks8_ten :
    chunks 8 ([0, 1, 2, 3, 4, 5, 6, 7, 8, 9] : List TokenId) =
      [[0, 1, 2, 3, 4, 5, 6, 7], [8, 9]] := by
  rw [chunks]
  norm_num
  rw [chunks]
  norm_num
  rw [chunks]
  norm_num

theorem chunks8_two : chunks 8 ([5, 6] : List TokenId) = [[5, 6]] := by
  rw [chunks]
  norm_num
  rw [chunks]
  norm_num

theorem chunks8_four :
    chunks 8 ([0, 1, 2, 3] : List TokenId) = [[0, 1, 2, 3]] := by
  rw [chunks]
  norm_num
  rw [chunks]
  norm_num

theorem chunks3_four :
    chunks 3 ([0, 1, 2, 3] : List TokenId) = [[0, 1, 2], [3]] := by
  rw [chunks]
  norm_num
  rw [chunks]
  norm_num
  rw [chunks]
  norm_num

theorem snapshot_read_write_aux (d : InferenceSnapshotData) (h : SnapWF d) (r : List Nat) :
    InferenceSnapshot.read (InferenceSnapshotRef.write d ++ r) = some d := by
  obtain ⟨h1, h2, h3, h4, h5, h6, h7, _, h9, _⟩ := h
  simp only [InferenceSnapshotRef.write, InferenceSnapshot.read, List.append_assoc,
    decU64_encU64 _ _ h1, decParams_encParams _ _ h2,
    decSeq_encSeq decI32 encI32 d.tokens _ h3
      (fun a ha r2 => decI32_encI32 a r2 (h4 a ha).1 (h4 a ha).2),
    decSeq_encSeq decU32 encU32 d.last_logits _ h5
      (fun a ha r2 => decU32_encU32 a r2 (h6 a ha)),
    decByteBuf_encByteBuf _ _ h7, decByteBuf_encByteBuf _ _ h9]

/-! ## Claim theorems -/

/-- C8: For every `i32` code `c`, `FileType::try_from(c)` succeeds iff `c` is
one of `{0,1,2,3,4,5,7,8,9}` (in particular `6` and `10` fail), and whenever
it succeeds, converting the resulting `FileType` back to `i32` yields `c`. -/
theorem fileType_code_mapping :
    (∀ c : Int, (FileType.tryFromI32 c).isSome ↔
      (c = 0 ∨ c = 1 ∨ c = 2 ∨ c = 3 ∨ c = 4 ∨ c = 5 ∨ c = 7 ∨ c = 8 ∨ c = 9)) ∧
    FileType.tryFromI32 6 = none ∧ FileType.tryFromI32 10 = none ∧
    ∀ (c : Int) (ft : FileType), FileType.tryFromI32 c = some ft → ft.toI32 = c := by
  refine ⟨?_, by decide, by decide, ?_⟩
  · intro c
    unfold FileType.tryFromI32
    repeat' split
    all_goals simp_all
  · intro c ft h
    unfold FileType.tryFromI32 at h
    repeat' split at h
    all_goals cases h
    all_goals subst_vars
    all_goals rfl

/-- C8 witness: code `5` maps to `MostlyQ4_2` and back to `5`. -/
theorem fileType_code_mapping_witness : FileType.MostlyQ4_2.toI32 = 5 :=
  fileType_code_mapping.2.2.2 5 .MostlyQ4_2 (by decide)

/-- C10: `repetition_penalty_tokens` returns the last
`min(tokens.len(), repetition_penalty_last_n)` token ids without panicking:
the slice start saturates to 0, and when `repetition_penalty_last_n` is at
least the number of stored tokens the whole history is returned. -/
theorem repetition_penalty_tokens_safe (s : InferenceSession) :
    s.repetition_penalty_tokens.length =
      min s.tokens.length s.params.repetition_penalty_last_n ∧
    s.tokens.length - s.params.repetition_penalty_last_n ≤ s.tokens.length ∧
    s.tokens.take (s.tokens.length - s.params.repetition_penalty_last_n) ++
        s.repetition_penalty_tokens = s.tokens ∧
    (s.tokens.length ≤ s.params.repetition_penalty_last_n →
      s.repetition_penalty_tokens = s.tokens) := by
  refine ⟨?_, ?_, ?_, ?_⟩
  · simp only [InferenceSession.repetition_penalty_tokens, List.length_drop]
    omega
  · omega
  · exact List.take_append_drop _ _
  · intro h
    have : s.tokens.length - s.params.repetition_penalty_last_n = 0 := by omega
    simp [InferenceSession.repetition_penalty_tokens, this]

/-- C10 witness: a session holding 2 tokens with
`repetition_penalty_last_n = 5` returns its whole history. -/
theorem repetition_penalty_tokens_safe_witness :
    sessionShort.repetition_penalty_tokens = sessionShort.tokens :=
  (repetition_penalty_tokens_safe sessionShort).2.2.2 (by decide)

/-- C9: `load` fails with `MultipartNotSupported`, carrying the full list of
discovered paths, exactly when the sibling-file enumeration finds more than
one model file; when exactly one file is found, loading proceeds. -/
theorem load_multipart_spec (mainPath : PathName) (siblings : List PathName) :
    (loadMultipartCheck mainPath siblings =
        .error (.MultipartNotSupported (find_all_model_files mainPath siblings)) ↔
      1 < (find_all_model_files mainPath siblings).length) ∧
    ((find_all_model_files mainPath siblings).length = 1 →
      loadMultipartCheck mainPath siblings = .ok ()) := by
  have hpos : 0 < (find_all_model_files mainPath siblings).length := by
    simp [find_all_model_files]
  unfold loadMultipartCheck
  by_cases h : (find_all_model_files mainPath siblings).length = 1
  · rw [if_neg (by omega)]
    exact ⟨⟨fun he => absurd he (by simp), fun hlt => absurd hlt (by omega)⟩, fun _ => rfl⟩
  · rw [if_pos (by omega)]
    exact ⟨⟨fun _ => by omega, fun _ => rfl⟩, fun h1 => absurd h1 h⟩

/-- C9 witness: `model.bin` next to `model.bin.1` is rejected with both paths
listed; `model.bin` alone proceeds. -/
theorem load_multipart_spec_witness :
    loadMultipartCheck "model.bin".toList ["model.bin.1".toList] =
      .error (.MultipartNotSupported ["model.bin".toList, "model.bin.1".toList]) ∧
    loadMultipartCheck "model.bin".toList ["other.bin".toList] = .ok () := by
  constructor
  · exact (load_multipart_spec "model.bin".toList ["model.bin.1".toList]).1.mpr (by decide)
  · exact (load_multipart_spec "model.bin".toList ["other.bin".toList]).2 (by decide)

/-- C7: in every layer of a BLOOM `evaluate` call, the attention scores are
built in the order K·Q product, scaling by `1/sqrt(n_embd/n_head)`, ALiBi
additive bias, causal mask at `n_past`, then row-wise softmax — the scale
before the bias and the mask, and the mask before the softmax. -/
theorem bloom_attention_score_order (cfg : BloomCfg) (il : Nat) (q_current : TExpr) :
    attnPipeline (bloomAttnScores cfg il q_current) =
      [.kqProduct, .scaleStage, .alibiStage, .maskStage, .softmaxStage] ∧
    bloomAttnScores cfg il q_current =
      .softMax
        (.diagMaskInf
          (.alibi
            (.scale
              (.mulMat
                (.permute
                  (.reshape3d
                    (.view1d .memoryK ((cfg.n_past + cfg.n) * cfg.n_embd)
                      (il * cfg.n_ctx * cfg.eltK * cfg.n_embd))
                    (cfg.n_embd / cfg.n_head) cfg.n_head (cfg.n_past + cfg.n)) 0 2 1 3)
                (.permute
                  (.cpy q_current
                    (.newTensor3dF32 (cfg.n_embd / cfg.n_head) cfg.n_head cfg.n)) 0 2 1 3))
              (.newF32 (.invSqrtHeadDim cfg.n_embd cfg.n_head)))
            cfg.n_past cfg.n_head)
          cfg.n_past) :=
  ⟨rfl, rfl⟩

/-- C5: contrary to the claim, a BLOOM `evaluate` call passes the raw
input-token tensor `embd` to `extract_embeddings`, not the pre-`lm_head`
activations (the output of the final norm): the merge artefact left the
captured `embeddings_tensor` unused. -/
theorem bloom_embeddings_source_is_input_tokens (cfg : BloomCfg) :
    (Bloom.evaluate cfg).embeddingsSrc = TExpr.inputTokens ∧
    ∀ x : TExpr, (Bloom.evaluate cfg).embeddingsSrc ≠ bloomFinalNorm x := by
  refine ⟨rfl, ?_⟩
  intro x h
  simp only [Bloom.evaluate, bloomFinalNorm] at h
  exact TExpr.noConfusion h

/-- C6: in every layer `l` of a BLOOM `evaluate` call on `n` input tokens,
the KV-cache write is performed iff `n ≥ 1`, and the destination views into
`memory_k` and `memory_v` hold `n·n_embd` elements starting at byte offset
`(l·n_context + n_past)·n_embd·element_size`. -/
theorem bloom_kv_write_views (cfg : BloomCfg) :
    (Bloom.evaluate cfg).kvWriteOps.map cpyDst =
      ((List.range cfg.n_layer).map fun l => claimedKVDsts cfg l).flatten ∧
    ∀ l : Nat,
      (claimedKVDsts cfg l ≠ [] ↔ 1 ≤ cfg.n) ∧
      (1 ≤ cfg.n →
        claimedKVDsts cfg l =
          [TExpr.view1d .memoryK (cfg.n * cfg.n_embd)
            ((l * cfg.n_ctx + cfg.n_past) * cfg.n_embd * cfg.eltK),
           TExpr.view1d .memoryV (cfg.n * cfg.n_embd)
            ((l * cfg.n_ctx + cfg.n_past) * cfg.n_embd * cfg.eltV)]) := by
  constructor
  · have h := bloomLayersFrom_kv_dsts cfg cfg.n_layer 0
    simp only [Bloom.evaluate]
    rw [h]
    simp
  · intro l
    by_cases h : 1 ≤ cfg.n
    · simp [claimedKVDsts, h]
    · simp [claimedKVDsts, h]

/-- C1: contrary to the claim, the context-window guards of `feed_prompt` and
`infer_next_token` are commented out: with `n_context = 8` and a prompt of 10
tokens a fresh session consumes all 10 tokens and returns `Ok` (never
`ContextFull`), ending with `n_past = 10 > n_context`; `infer_next_token`
returns `Ok` unconditionally, even when `n_past + 1 > n_context`. -/
theorem feed_prompt_overruns_context :
    (modelTok [0, 1, 2, 3, 4, 5, 6, 7, 8, 9]).n_ctx = 8 ∧
    (sessionFresh.feed_prompt (modelTok [0, 1, 2, 3, 4, 5, 6, 7, 8, 9]) ipDefault "a"
        fun _ => true).2 = none ∧
    (sessionFresh.feed_prompt (modelTok [0, 1, 2, 3, 4, 5, 6, 7, 8, 9]) ipDefault "a"
        fun _ => true).1.n_past = 10 ∧
    (sessionFresh.feed_prompt (modelTok [0, 1, 2, 3, 4, 5, 6, 7, 8, 9]) ipDefault "a"
        fun _ => true).1.tokens.length = 10 ∧
    ∀ (m : ModelSpec) (s : InferenceSession) (params : InferenceParameters) (rng : Nat),
      (s.infer_next_token m params rng).2.1 = none := by
  refine ⟨rfl, ?_, ?_, ?_, fun m s params rng => rfl⟩ <;>
    simp [InferenceSession.feed_prompt, InferenceSession.feed_prompt_traced, modelTok,
      chunks8_ten, feedBatchesLoop, feedTokensLoop, ModelSpec.evaluate, sessionFresh]

/-- C2 counterexample: a `feed_prompt` whose callback fails on the first token
has already evaluated the whole first batch (`n_past` increased by 2) but
recorded no tokens, so `tokens.len() ≠ n_past` — the claim's
"including calls whose per-token callback returns an error" is false. -/
theorem feed_prompt_callback_error_breaks_token_count :
    (sessionFresh.feed_prompt_traced (modelTok [5, 6]) ipDefault "a"
        fun _ => false).2.1 = some .UserCallback ∧
    (sessionFresh.feed_prompt_traced (modelTok [5, 6]) ipDefault "a"
        fun _ => false).1.n_past = 2 ∧
    (sessionFresh.feed_prompt_traced (modelTok [5, 6]) ipDefault "a"
        fun _ => false).1.tokens.length = 0 ∧
    (sessionFresh.feed_prompt_traced (modelTok [5, 6]) ipDefault "a"
        fun _ => false).1.tokens.length ≠
      (sessionFresh.feed_prompt_traced (modelTok [5, 6]) ipDefault "a"
        fun _ => false).1.n_past := by
  refine ⟨?_, ?_, ?_, ?_⟩ <;>
    simp [InferenceSession.feed_prompt_traced, modelTok, chunks8_two, feedBatchesLoop,
      feedTokensLoop, ModelSpec.evaluate, sessionFresh]

/-- C2 (amended): after a `feed_prompt` that evaluated the batches in its
trace, `n_past` grows by exactly the number of evaluated tokens (also when
the callback errors); when the call returns `Ok`, the evaluated tokens are
exactly the ones appended, so `tokens.len() = n_past` is preserved; after at
least one `evaluate`, `last_logits.len() = n_vocab`.  `infer_next_token`
always adds one token and one position and refreshes `last_logits`. -/
theorem session_eval_invariants
    (m : ModelSpec) (params : InferenceParameters) (s : InferenceSession) (prompt : String)
    (cb : TokenId → Bool)
    (hm : ∀ p st b, (m.logitsAt p st b).length = m.n_vocab) :
    ((s.feed_prompt_traced m params prompt cb).1.n_past =
        s.n_past + (s.feed_prompt_traced m params prompt cb).2.2.flatten.length) ∧
    ((s.feed_prompt_traced m params prompt cb).2.1 = none →
      (s.feed_prompt_traced m params prompt cb).1.tokens =
        s.tokens ++ (s.feed_prompt_traced m params prompt cb).2.2.flatten) ∧
    ((s.feed_prompt_traced m params prompt cb).2.1 = none → s.tokens.length = s.n_past →
      (s.feed_prompt_traced m params prompt cb).1.tokens.length =
        (s.feed_prompt_traced m params prompt cb).1.n_past) ∧
    ((s.feed_prompt_traced m params prompt cb).2.2 ≠ [] →
      (s.feed_prompt_traced m params prompt cb).1.last_logits.length = m.n_vocab) ∧
    ∀ rng : Nat,
      (s.infer_next_token m params rng).1.n_past = s.n_past + 1 ∧
      (s.infer_next_token m params rng).1.tokens = s.tokens ++ [m.sample params s rng] ∧
      (s.tokens.length = s.n_past →
        (s.infer_next_token m params rng).1.tokens.length =
          (s.infer_next_token m params rng).1.n_past) ∧
      (s.infer_next_token m params rng).1.last_logits.length = m.n_vocab := by
  have hinfer : ∀ rng : Nat,
      (s.infer_next_token m params rng).1.n_past = s.n_past + 1 ∧
      (s.infer_next_token m params rng).1.tokens = s.tokens ++ [m.sample params s rng] ∧
      (s.tokens.length = s.n_past →
        (s.infer_next_token m params rng).1.tokens.length =
          (s.infer_next_token m params rng).1.n_past) ∧
      (s.infer_next_token m params rng).1.last_logits.length = m.n_vocab := by
    intro rng
    refine ⟨rfl, rfl, ?_, hm _ _ _⟩
    intro hlen
    simp [InferenceSession.infer_next_token, ModelSpec.evaluate, hlen]
  rcases htk : m.tokenize prompt (decide (s.n_past = 0)) with e | toks
  · refine ⟨?_, ?_, ?_, ?_, hinfer⟩ <;>
      simp [InferenceSession.feed_prompt_traced, htk]
  · have hfp : s.feed_prompt_traced m params prompt cb =
        feedBatchesLoop m params cb (chunks 8 toks) s := by
      simp [InferenceSession.feed_prompt_traced, htk]
    rw [hfp]
    refine ⟨feedBatchesLoop_n_past m params cb (chunks 8 toks) s, ?_, ?_, ?_, hinfer⟩
    · intro hok
      rw [feedBatchesLoop_ok_trace m params cb (chunks 8 toks) s hok]
      exact feedBatchesLoop_ok_tokens m params cb (chunks 8 toks) s hok
    · intro hok hlen
      rw [feedBatchesLoop_n_past m params cb (chunks 8 toks) s,
        feedBatchesLoop_ok_tokens m params cb (chunks 8 toks) s hok,
        feedBatchesLoop_ok_trace m params cb (chunks 8 toks) s hok]
      simp [hlen]
    · intro htr
      rcases hb : chunks 8 toks with _ | ⟨b, bs⟩
      · rw [hb] at htr
        simp [feedBatchesLoop] at htr
      · exact feedBatchesLoop_logits_len m params cb (b :: bs) s hm (by simp)

/-- C2 witness: the `n_past` bookkeeping at a concrete model and session. -/
theorem session_eval_invariants_witness :
    (sessionFresh.feed_prompt_traced (modelTok [5, 6]) ipDefault "a"
        fun _ => true).1.n_past =
      sessionFresh.n_past +
        (sessionFresh.feed_prompt_traced (modelTok [5, 6]) ipDefault "a"
          fun _ => true).2.2.flatten.length :=
  (session_eval_invariants (modelTok [5, 6]) ipDefault sessionFresh "a" (fun _ => true)
    fun _ _ _ => rfl).1

/-- C3: writing a session's snapshot and reading it back yields a snapshot
whose `n_past`, session parameters, tokens, last logits, and raw
`memory_k`/`memory_v` bytes equal the session's, so any deterministic
sampler produces the same next token from the restored snapshot. -/
theorem snapshot_roundtrip (sess : InferenceSession) (h : SnapWF sess.get_snapshot) :
    InferenceSnapshot.read (InferenceSnapshotRef.write sess.get_snapshot) =
      some { npast := sess.n_past, session_params := sess.params, tokens := sess.tokens,
             last_logits := sess.last_logits, memory_k := sess.memory_k,
             memory_v := sess.memory_v } ∧
    ∀ sample_next : InferenceSnapshotData → TokenId,
      (InferenceSnapshot.read (InferenceSnapshotRef.write sess.get_snapshot)).map
          sample_next =
        some (sample_next sess.get_snapshot) := by
  have haux := snapshot_read_write_aux sess.get_snapshot h []
  rw [List.append_nil] at haux
  exact ⟨haux, fun f => by rw [haux]; rfl⟩

/-- C3 witness: round trip of a concrete non-trivial snapshot. -/
theorem snapshot_roundtrip_witness :
    InferenceSnapshot.read (InferenceSnapshotRef.write sessionSnap.get_snapshot) =
      some { npast := sessionSnap.n_past, session_params := sessionSnap.params,
             tokens := sessionSnap.tokens, last_logits := sessionSnap.last_logits,
             memory_k := sessionSnap.memory_k, memory_v := sessionSnap.memory_v } :=
  (snapshot_roundtrip sessionSnap (by decide)).1

/-- C4 counterexample: with `params.n_batch = 3` and a 4-token prompt, the
claim predicts two `evaluate` batches `[[0,1,2],[3]]`, but `feed_prompt`
chunks by the hardcoded constant 8 and evaluates once on `[[0,1,2,3]]`. -/
theorem feed_prompt_ignores_n_batch :
    ipBatch3.n_batch = 3 ∧
    (sessionFresh.feed_prompt_traced (modelTok [0, 1, 2, 3]) ipBatch3 "a"
        fun _ => true).2.2 = [[0, 1, 2, 3]] ∧
    chunks ipBatch3.n_batch ([0, 1, 2, 3] : List TokenId) = [[0, 1, 2], [3]] ∧
    (sessionFresh.feed_prompt_traced (modelTok [0, 1, 2, 3]) ipBatch3 "a"
        fun _ => true).2.2 ≠ chunks ipBatch3.n_batch ([0, 1, 2, 3] : List TokenId) := by
  have h2 : (sessionFresh.feed_prompt_traced (modelTok [0, 1, 2, 3]) ipBatch3 "a"
      fun _ => true).2.2 = [[0, 1, 2, 3]] := by
    simp [InferenceSession.feed_prompt_traced, modelTok, chunks8_four, feedBatchesLoop,
      feedTokensLoop, ModelSpec.evaluate, sessionFresh]
  have h3 : chunks ipBatch3.n_batch ([0, 1, 2, 3] : List TokenId) = [[0, 1, 2], [3]] := by
    have hnb : ipBatch3.n_batch = 3 := rfl
    rw [hnb, chunks3_four]
  refine ⟨rfl, h2, h3, ?_⟩
  rw [h2, h3]
  simp

/-- C4 (amended): `feed_prompt` tokenizes with BOS iff `n_past == 0` and
partitions the tokens into consecutive batches of the hardcoded size 8
(`params.n_batch` is ignored; the last batch may be shorter), calling
`evaluate` exactly once per batch. -/
theorem feed_prompt_batches_hardcoded_eight
    (m : ModelSpec) (params : InferenceParameters) (s : InferenceSession)
    (prompt : String) (cb : TokenId → Bool) (toks : List TokenId)
    (htk : m.tokenize prompt (decide (s.n_past = 0)) = .ok toks)
    (hcb : ∀ t, cb t = true) :
    (s.feed_prompt_traced m params prompt cb).2.2 = chunks 8 toks ∧
    (chunks 8 toks).flatten = toks ∧
    ∀ c ∈ chunks 8 toks, c ≠ [] ∧ c.length ≤ 8 := by
  refine ⟨?_, chunks_join 8 (by norm_num) toks, chunks_mem_length 8 (by norm_num) toks⟩
  have herr := feedBatchesLoop_all_ok m params cb hcb (chunks 8 toks) s
  have htr := feedBatchesLoop_ok_trace m params cb (chunks 8 toks) s herr
  simp [InferenceSession.feed_prompt_traced, htk, htr]

/-- C4 witness: the batch trace of a concrete 4-token prompt is one batch. -/
theorem feed_prompt_batches_hardcoded_eight_witness :
    (sessionFresh.feed_prompt_traced (modelTok [0, 1, 2, 3]) ipDefault "a"
        fun _ => true).2.2 = chunks 8 [0, 1, 2, 3] :=
  (feed_prompt_batches_hardcoded_eight (modelTok [0, 1, 2, 3]) ipDefault sessionFresh "a"
    (fun _ => true) [0, 1, 2, 3] rfl fun _ => rfl).1

/-- C6 witness: with `n = 2`, `n_past = 3`, `n_ctx = 8`, `n_embd = 4`,
element size 4, layer 1 writes 8 elements at byte offset `(8+3)·4·4`. -/
theorem bloom_kv_write_views_witness :
    claimedKVDsts cfgSmall 1 =
      [TExpr.view1d .memoryK (cfgSmall.n * cfgSmall.n_embd)
        ((1 * cfgSmall.n_ctx + cfgSmall.n_past) * cfgSmall.n_embd * cfgSmall.eltK),
       TExpr.view1d .memoryV (cfgSmall.n * cfgSmall.n_embd)
        ((1 * cfgSmall.n_ctx + cfgSmall.n_past) * cfgSmall.n_embd * cfgSmall.eltV)] :=
  ((bloom_kv_write_views cfgSmall).2 1).2 (by decide)

end LlamaRs
